import Mathlib

/-!
Verification of the chat-sandbox file router
(`backend/open_webui/routers/sandboxes.py`).

The Python source is shallowly embedded:

* strings are Lean `String`s, manipulated through their `List Char` data
  so that Python's `str.split("/")`, `str.strip("/")`, `str.lstrip("/")`
  and `urllib.parse.unquote` become structurally recursive functions;
* the filesystem is a finite association list from absolute paths
  (`List String` of segments, rooted at the process working directory)
  to nodes (regular file with size and mtime, directory, or symbolic
  link with an absolute target);
* POSIX path resolution (`Path.resolve()` / what the kernel does when a
  syscall walks a path) is `resolvePath`: components are walked left to
  right, `.` is skipped, `..` drops the last resolved component, and a
  symlink is expanded (bounded by a link-recursion fuel, as ELOOP is in
  the kernel);
* each FastAPI handler becomes a pure function from a filesystem state
  and its request parameters to a result (`Except ApiErr _`) and the new
  filesystem state.  HTTP status codes are mapped to the `ApiErr`
  constructors (404 `notFound`, 403 `accessDenied`, 409 `conflict`,
  400 `badRequest`, 500 `serverError`).

Abstractions, each noted at the definition it concerns: timestamps of
freshly created nodes are 0; `unquote` is modelled for single-byte
(ASCII) percent escapes; OS permission errors do not exist in the model.
-/

namespace SandboxRouter

/-! ## Python string primitives -/

/-- Value of a hexadecimal digit, as accepted by `urllib.parse.unquote`. -/
def hexVal (c : Char) : Option Nat :=
  if '0' ≤ c ∧ c ≤ '9' then some (c.toNat - 48)
  else if 'a' ≤ c ∧ c ≤ 'f' then some (c.toNat - 87)
  else if 'A' ≤ c ∧ c ≤ 'F' then some (c.toNat - 55)
  else none

/-- `urllib.parse.unquote`, modelled at the character level for
single-byte escapes: `%XX` with two hex digits becomes the character
with that code, anything else is copied verbatim.  (Python additionally
UTF-8-decodes consecutive high bytes; the claims only involve ASCII.) -/
def unquoteChars : List Char → List Char
  | '%' :: h1 :: h2 :: rest =>
    match hexVal h1, hexVal h2 with
    | some a, some b => Char.ofNat (16 * a + b) :: unquoteChars rest
    | _, _ => '%' :: unquoteChars (h1 :: h2 :: rest)
  | c :: rest => c :: unquoteChars rest
  | [] => []

/-- Python `str.split("/")`: greedy split on every `'/'`, keeping empty
pieces (`"".split("/") == [""]`). -/
def splitSlash : List Char → List (List Char)
  | [] => [[]]
  | c :: rest =>
    if c = '/' then [] :: splitSlash rest
    else (c :: (splitSlash rest).headD []) :: (splitSlash rest).tail

/-- Python `str.rstrip("/")`: drop trailing `'/'` characters. -/
def rdropSlash : List Char → List Char
  | [] => []
  | c :: rest =>
    if rdropSlash rest = [] then (if c = '/' then [] else [c])
    else c :: rdropSlash rest

/-- Python `str.strip("/")`: drop leading and trailing `'/'` characters. -/
def stripSlash (l : List Char) : List Char :=
  rdropSlash (l.dropWhile (· = '/'))

/-- Python `str.lstrip("/")` on a `String`. -/
def lstripSlash (s : String) : String :=
  String.mk (s.data.dropWhile (· = '/'))

/-- Python `"/".join(parts)`. -/
def joinSegs : List (List Char) → List Char
  | [] => []
  | [s] => s
  | s :: ss => s ++ '/' :: joinSegs ss

/-- The filter of `sanitize_path`: keep a piece iff
`part and part != "." and part != ".."`. -/
def keepSeg (t : List Char) : Bool :=
  !(t.isEmpty) && !(t == ['.']) && !(t == ['.', '.'])

/-- The surviving segments of `sanitize_path` before rejoining. -/
def sanitizeSegs (l : List Char) : List (List Char) :=
  (splitSlash (stripSlash (unquoteChars l))).filter keepSeg

/-- `sanitize_path` from the source: URL-decode, strip leading/trailing
slashes, split on `/`, drop empty/`.`/`..` pieces, rejoin with `/`. -/
def sanitize_path (s : String) : String :=
  String.mk (joinSegs (sanitizeSegs s.data))

/-! ## Filesystem model -/

/-- An absolute path: the list of its segments, rooted at the process
working directory (the source's paths are relative to it, e.g.
`./data/sandboxes`). -/
abbrev AbsPath := List String

/-- A filesystem node: a regular file (with size in bytes and mtime),
a directory (with mtime), or a symbolic link with an absolute target. -/
inductive Node where
  | file (size : Nat) (mtime : Nat)
  | dir (mtime : Nat)
  | symlink (target : AbsPath)
deriving DecidableEq, Repr

/-- A filesystem: a finite association list from absolute paths to
nodes.  Iteration order of a directory (`iterdir`) is the order of its
children in this list. -/
structure FS where
  entries : List (AbsPath × Node)
deriving DecidableEq, Repr

/-- The node stored at `p`, without following a symlink at `p`
(`os.lstat`). -/
def FS.lookup (fs : FS) (p : AbsPath) : Option Node :=
  (fs.entries.find? (fun e => e.1 = p)).map Prod.snd

/-- Append an entry (used for node creation; creation syscalls are only
issued after the model has checked the path is absent). -/
def FS.insert (fs : FS) (p : AbsPath) (n : Node) : FS :=
  ⟨fs.entries ++ [(p, n)]⟩

/-- Maximum symlink-expansion depth during path resolution, as the
kernel's ELOOP limit. -/
def linkFuel : Nat := 40

/-- POSIX path resolution (`Path.resolve()` with `strict=False`, and
what the kernel does while walking a path): components are processed
left to right against the already-resolved prefix `acc`; `.` is
skipped, `..` drops the last resolved component, a symlink is expanded
through its absolute target.  The fuel bounds the total number of
steps — `resolve` grants one unit per component plus `linkFuel` for
symlink expansions, so a walk without symlink loops always completes
and a looping one stops (as the kernel's ELOOP does). -/
def resolveAux (fs : FS) : Nat → AbsPath → List String → AbsPath
  | 0, acc, rest => acc ++ rest
  | _ + 1, acc, [] => acc
  | fuel + 1, acc, c :: rest =>
    if c = "." then resolveAux fs fuel acc rest
    else if c = ".." then resolveAux fs fuel acc.dropLast rest
    else
      match fs.lookup (acc ++ [c]) with
      | some (Node.symlink t) => resolveAux fs fuel (resolveAux fs fuel [] t) rest
      | _ => resolveAux fs fuel (acc ++ [c]) rest

/-- `Path.resolve()` of an absolute path. -/
def resolve (fs : FS) (p : AbsPath) : AbsPath :=
  resolveAux fs (p.length + linkFuel) [] p

/-- Resolve every component but the last and keep the last unexpanded:
where `unlink`/`mkdir`/`O_EXCL` act. -/
def resolveNoFollow (fs : FS) (p : AbsPath) : AbsPath :=
  match p.getLast? with
  | none => []
  | some c => resolve fs p.dropLast ++ [c]

/-- The node a path denotes after full resolution (`os.stat`). -/
def statNode (fs : FS) (p : AbsPath) : Option Node :=
  fs.lookup (resolve fs p)

/-- `Path.exists()` (follows symlinks). -/
def FS.pexists (fs : FS) (p : AbsPath) : Bool :=
  (statNode fs p).isSome

/-- `Path.is_file()` (follows symlinks). -/
def FS.isFile (fs : FS) (p : AbsPath) : Bool :=
  match statNode fs p with
  | some (Node.file _ _) => true
  | _ => false

/-- `Path.is_dir()` (follows symlinks). -/
def FS.isDir (fs : FS) (p : AbsPath) : Bool :=
  match statNode fs p with
  | some (Node.dir _) => true
  | _ => false

/-- `stat().st_size` (0 when the target is not a regular file). -/
def statSize (fs : FS) (p : AbsPath) : Nat :=
  match statNode fs p with
  | some (Node.file sz _) => sz
  | _ => 0

/-- `stat().st_mtime`. -/
def statMtime (fs : FS) (p : AbsPath) : Nat :=
  match statNode fs p with
  | some (Node.file _ m) => m
  | some (Node.dir m) => m
  | _ => 0

/-- The names of the immediate children of directory `p`, in iteration
order (`iterdir`). -/
def FS.children (fs : FS) (p : AbsPath) : List String :=
  fs.entries.filterMap (fun e =>
    if e.1.length = p.length + 1 && e.1.take p.length == p then e.1.getLast? else none)

/-- `pathlib` parsing of one string operand of `/`: split on `/`, drop
empty pieces and `.` (pathlib collapses those), keep `..`. -/
def pathSegsOfString (s : String) : List String :=
  ((splitSlash s.data).filter (fun t => !(t.isEmpty) && !(t == ['.']))).map
    (fun t => String.mk t)

/-- `pathlib`'s `base / s`: if `s` is absolute it replaces `base`,
otherwise its segments are appended. -/
def pathJoin (base : AbsPath) (s : String) : AbsPath :=
  if s.data.head? = some '/' then pathSegsOfString s else base ++ pathSegsOfString s

/-- `mkdir(parents=True, exist_ok=True)`: walk the components, follow
existing nodes (expanding symlinks as the OS does), create a missing
directory at each absent step.  An existing non-directory component
would raise in Python; the model walks on (no claim exercises it).
Created directories get mtime 0 (timestamps are abstracted). -/
def mkdirGo (fs : FS) (acc : AbsPath) : List String → FS
  | [] => fs
  | c :: rest =>
    if c = "." then mkdirGo fs acc rest
    else if c = ".." then mkdirGo fs acc.dropLast rest
    else
      match fs.lookup (acc ++ [c]) with
      | some (Node.symlink t) => mkdirGo fs (resolve fs t) rest
      | some _ => mkdirGo fs (acc ++ [c]) rest
      | none => mkdirGo (fs.insert (acc ++ [c]) (Node.dir 0)) (acc ++ [c]) rest

/-- `Path.mkdir(parents=True, exist_ok=True)` from the filesystem root. -/
def FS.mkdirP (fs : FS) (p : AbsPath) : FS :=
  mkdirGo fs [] p

/-- Remove the single entry at resolved location `p` (`unlink`). -/
def FS.removePath (fs : FS) (p : AbsPath) : FS :=
  ⟨fs.entries.filter (fun e => !(e.1 == p))⟩

/-- Remove the entry at resolved location `p` and everything below it
(`shutil.rmtree`). -/
def FS.removeTree (fs : FS) (p : AbsPath) : FS :=
  ⟨fs.entries.filter (fun e => !(p.isPrefixOf e.1))⟩

/-- `os.rename(src, dst)` on resolved locations: every entry at or
below `src` is re-rooted at `dst`. -/
def FS.moveTree (fs : FS) (src dst : AbsPath) : FS :=
  ⟨fs.entries.map (fun e =>
    if src.isPrefixOf e.1 then (dst ++ e.1.drop src.length, e.2) else e)⟩

/-- `open(p, "wb")` + write of `sz` bytes: full resolution (the final
symlink is followed), the parent of the resolved location must be an
existing directory, an existing directory at the location is an error;
otherwise the file is created or overwritten.  Written files get
mtime 0 (timestamps are abstracted). -/
def openWrite (fs : FS) (p : AbsPath) (sz : Nat) : Except Unit FS :=
  let r := resolve fs p
  match r.getLast? with
  | none => Except.error ()
  | some _ =>
    match fs.lookup r.dropLast, fs.lookup r with
    | some (Node.dir _), some (Node.dir _) => Except.error ()
    | some (Node.dir _), some _ =>
      Except.ok ⟨fs.entries.map (fun e => if e.1 = r then (r, Node.file sz 0) else e)⟩
    | some (Node.dir _), none => Except.ok (fs.insert r (Node.file sz 0))
    | _, _ => Except.error ()

/-! ## Router operations -/

deriving instance DecidableEq for Except

/-- The error taxonomy, mapping the handlers' HTTP statuses:
404 `notFound`, 403 `accessDenied`, 409 `conflict`, 400 `badRequest`,
500 `serverError`. -/
inductive ApiErr where
  | notFound
  | accessDenied
  | conflict
  | badRequest
  | serverError
deriving DecidableEq, Repr

/-- One listing/creation response record (the SVAR dict): `size` is
absent (`none`) for folders, `lazy` is emitted only for folders. -/
structure Entry where
  id : String
  size : Option Nat
  date : Nat
  type : String
  lazy : Bool
deriving DecidableEq, Repr

/-- `SANDBOX_BASE_PATH = Path("./data/sandboxes")`. -/
def SANDBOX_BASE_PATH : AbsPath := ["data", "sandboxes"]

/-- `get_sandbox_path`. -/
def get_sandbox_path (chat_id : String) : AbsPath :=
  SANDBOX_BASE_PATH ++ [chat_id]

/-- ASCII `str.lower` on one character. -/
def charLower (c : Char) : Char :=
  if 'A' ≤ c ∧ c ≤ 'Z' then Char.ofNat (c.toNat + 32) else c

/-- Python `str.lower()`, modelled for ASCII. -/
def strLower (s : String) : String :=
  String.mk (s.data.map charLower)

/-- Lexicographic strict comparison of strings by character code
(Python `<` on `str`). -/
def listCharLT : List Char → List Char → Bool
  | [], [] => false
  | [], _ :: _ => true
  | _ :: _, [] => false
  | a :: as, b :: bs => if a = b then listCharLT as bs else decide (a < b)

/-- The sort key of `build_file_tree`:
`(x["type"] == "file", x["id"].lower())`. -/
def entryKey (e : Entry) : Bool × List Char :=
  (e.type == "file", (strLower e.id).data)

/-- Strict comparison of sort keys (Python `<` on the key tuples:
`False < True`, then string order). -/
def keyLT (a b : Bool × List Char) : Bool :=
  (!a.1 && b.1) || (a.1 == b.1 && listCharLT a.2 b.2)

/-- The (non-strict, total) ordering used to sort entries. -/
def entryRel (a b : Entry) : Prop :=
  keyLT (entryKey b) (entryKey a) = false

instance : DecidableRel entryRel :=
  fun _ _ => inferInstanceAs (Decidable (_ = false))

/-- `sorted(items, key=lambda x: (x["type"] == "file", x["id"].lower()))`:
Python's stable sort, modelled as stable insertion sort on the same key. -/
def sortEntries (l : List Entry) : List Entry :=
  l.insertionSort entryRel

/-- The id of a listed child: `"/" + str(Path(rel) / name)`, written as
direct concatenation, which is what `pathlib` produces for the
normalized `rel` every caller passes (the output of `sanitize_path`). -/
def childId (rel n : String) : String :=
  if rel = "" then "/" ++ n else "/" ++ rel ++ "/" ++ n

/-- The listing record for one child (`item`) of the directory being
listed, or `none` when the child is neither a file nor a directory
after following symlinks (`is_file` / `is_dir` both false, e.g. a
broken symlink) and is skipped. -/
def childEntry (fs : FS) (rel : String) (cur : AbsPath) (n : String) : Option Entry :=
  if fs.isFile (cur ++ [n]) then
    some { id := childId rel n, size := some (statSize fs (cur ++ [n])),
           date := statMtime fs (cur ++ [n]) * 1000, type := "file", lazy := false }
  else if fs.isDir (cur ++ [n]) then
    some { id := childId rel n, size := none,
           date := statMtime fs (cur ++ [n]) * 1000, type := "folder", lazy := true }
  else none

/-- `current_path = base_path / relative_path if relative_path else base_path`. -/
def buildCurrent (base : AbsPath) (rel : String) : AbsPath :=
  if rel ≠ "" then pathJoin base rel else base

/-- `build_file_tree`: `[]` when the directory does not exist, else the
sorted records of its children.  Permission errors do not exist in the
model. -/
def build_file_tree (fs : FS) (base : AbsPath) (rel : String) : List Entry :=
  if !(fs.pexists (buildCurrent base rel)) then []
  else
    sortEntries ((fs.children (resolve fs (buildCurrent base rel))).filterMap
      (childEntry fs rel (resolve fs (buildCurrent base rel))))

/-- The `folder_path` of `list_sandbox_files`: the path parameter when
present, else the `id` query parameter without leading slashes. -/
def listFolderPath (folder_id : Option String) (idq : String) : String :=
  match folder_id with
  | some f => f
  | none => if idq ≠ "" then lstripSlash idq else ""

/-- `list_sandbox_files` (`GET /{chat_id}/files[/{folder_id}]`): the
sandbox root is created if absent, the folder comes from the path
parameter or from the `id` query parameter. -/
def list_sandbox_files (fs : FS) (chat_id : String) (folder_id : Option String)
    (idq : String) : List Entry × FS :=
  (build_file_tree (fs.mkdirP (get_sandbox_path chat_id)) (get_sandbox_path chat_id)
      (sanitize_path (listFolderPath folder_id idq)),
   fs.mkdirP (get_sandbox_path chat_id))

/-- The `relative_to(sandbox_path)` confinement check of the source:
`target.resolve().relative_to(root.resolve())` succeeds iff the
resolved root is a prefix of the resolved target. -/
def confined (fs : FS) (root target : AbsPath) : Bool :=
  (resolve fs root).isPrefixOf (resolve fs target)

/-- `"/" + str(p.relative_to(root))` (lexical, on the unresolved
paths); `none` models the `ValueError` when `root` is not a prefix. -/
def relIdOf (root p : AbsPath) : Option String :=
  if root.isPrefixOf p then
    some ("/" ++ String.intercalate "/" (p.drop root.length))
  else none

/-- The `target_dir` of `upload_sandbox_file`. -/
def uploadTargetDir (chat_id idq : String) : AbsPath :=
  if sanitize_path (lstripSlash idq) ≠ "" then
    pathJoin (get_sandbox_path chat_id) (sanitize_path (lstripSlash idq))
  else get_sandbox_path chat_id

/-- The state after `upload_sandbox_file` has created the sandbox root
and the target directory. -/
def uploadReadyFS (fs : FS) (chat_id idq : String) : FS :=
  (fs.mkdirP (get_sandbox_path chat_id)).mkdirP (uploadTargetDir chat_id idq)

/-- `upload_sandbox_file` (`POST /{chat_id}/upload`): note that
`file.filename` is joined to the target directory without
sanitization, and that no confinement check is performed. -/
def upload_sandbox_file (fs : FS) (chat_id filename : String) (contentSize : Nat)
    (idq : String) : Except ApiErr String × FS :=
  match openWrite (uploadReadyFS fs chat_id idq)
      (pathJoin (uploadTargetDir chat_id idq) filename) contentSize with
  | Except.ok fs3 => (Except.ok filename, fs3)
  | Except.error _ => (Except.error ApiErr.serverError, uploadReadyFS fs chat_id idq)

/-- `sandbox_path / sanitize_path(file_path)`, the target of the
download and delete routes. -/
def opTarget (chat_id file_path : String) : AbsPath :=
  pathJoin (get_sandbox_path chat_id) (sanitize_path file_path)

/-- `download_sandbox_file` (`GET /{chat_id}/files/{file_path}`):
existence and is-file first (404), then the confinement check (403),
then the file response (modelled as the resolved location served). -/
def download_sandbox_file (fs : FS) (chat_id file_path : String) :
    Except ApiErr AbsPath :=
  if !(fs.pexists (opTarget chat_id file_path)) ||
      !(fs.isFile (opTarget chat_id file_path)) then
    Except.error ApiErr.notFound
  else if !(confined fs (get_sandbox_path chat_id) (opTarget chat_id file_path)) then
    Except.error ApiErr.accessDenied
  else
    Except.ok (resolve fs (opTarget chat_id file_path))

/-- `delete_sandbox_file` (`DELETE /{chat_id}/files/{file_path}`):
existence first (404), then confinement (403), then `unlink` for a
file or `shutil.rmtree` for anything else. -/
def delete_sandbox_file (fs : FS) (chat_id file_path : String) :
    Except ApiErr Unit × FS :=
  if !(fs.pexists (opTarget chat_id file_path)) then (Except.error ApiErr.notFound, fs)
  else if !(confined fs (get_sandbox_path chat_id) (opTarget chat_id file_path)) then
    (Except.error ApiErr.accessDenied, fs)
  else if fs.isFile (opTarget chat_id file_path) then
    (Except.ok (), fs.removePath (resolveNoFollow fs (opTarget chat_id file_path)))
  else
    (Except.ok (), fs.removeTree (resolve fs (opTarget chat_id file_path)))

/-- The `safe_path` of `create_file_or_folder`:
`sanitize_path(path.lstrip("/")) if path != "/" else ""`. -/
def createSafePath (pathParam : String) : String :=
  if pathParam ≠ "/" then sanitize_path (lstripSlash pathParam) else ""

/-- The `target_dir` of `create_file_or_folder`. -/
def createTargetDir (chat_id pathParam : String) : AbsPath :=
  if createSafePath pathParam ≠ "" then
    pathJoin (get_sandbox_path chat_id) (createSafePath pathParam)
  else get_sandbox_path chat_id

/-- The `new_item_path` of `create_file_or_folder`. -/
def createNewItem (chat_id pathParam nm : String) : AbsPath :=
  pathJoin (createTargetDir chat_id pathParam) nm

/-- The state after `create_file_or_folder` has created the sandbox
root. -/
def createReadyFS (fs : FS) (chat_id : String) : FS :=
  fs.mkdirP (get_sandbox_path chat_id)

/-- Where the creation syscall acts: parents resolved, final component
kept (`O_EXCL` / `mkdir` do not follow a final symlink). -/
def createResolved (fs : FS) (chat_id pathParam nm : String) : AbsPath :=
  resolveNoFollow (createReadyFS fs chat_id) (createNewItem chat_id pathParam nm)

/-- `create_file_or_folder` (`POST /{chat_id}/files/{path}`), after
JSON parsing: `name`/`type` validation (400), no confinement check,
`mkdir(parents=True, exist_ok=False)` or `touch(exist_ok=False)` with
`FileExistsError` as 409, and any other failure (missing parent for
`touch`, `relative_to` outside the root) as 500. -/
def create_file_or_folder (fs : FS) (chat_id pathParam : String)
    (name item_type : Option String) : Except ApiErr Entry × FS :=
  if name.getD "" = "" then (Except.error ApiErr.badRequest, fs)
  else if item_type ≠ some "file" ∧ item_type ≠ some "folder" then
    (Except.error ApiErr.badRequest, fs)
  else if ((createReadyFS fs chat_id).lookup
      (createResolved fs chat_id pathParam (name.getD ""))).isSome then
    (Except.error ApiErr.conflict, createReadyFS fs chat_id)
  else if item_type = some "folder" then
    match relIdOf (get_sandbox_path chat_id) (createNewItem chat_id pathParam (name.getD "")) with
    | some fid =>
      (Except.ok { id := fid, size := none, date := 0, type := "folder", lazy := true },
       (createReadyFS fs chat_id).mkdirP (createNewItem chat_id pathParam (name.getD "")))
    | none =>
      (Except.error ApiErr.serverError,
       (createReadyFS fs chat_id).mkdirP (createNewItem chat_id pathParam (name.getD "")))
  else
    match (createReadyFS fs chat_id).lookup
        (createResolved fs chat_id pathParam (name.getD "")).dropLast with
    | some (Node.dir _) =>
      match relIdOf (get_sandbox_path chat_id)
          (createNewItem chat_id pathParam (name.getD "")) with
      | some fid =>
        (Except.ok { id := fid, size := some 0, date := 0, type := "file", lazy := false },
         (createReadyFS fs chat_id).insert
           (createResolved fs chat_id pathParam (name.getD "")) (Node.file 0 0))
      | none =>
        (Except.error ApiErr.serverError,
         (createReadyFS fs chat_id).insert
           (createResolved fs chat_id pathParam (name.getD "")) (Node.file 0 0))
    | _ => (Except.error ApiErr.serverError, createReadyFS fs chat_id)

/-- The `target_dir` of the legacy `create_sandbox_folder` route
(whose path parameter is not `lstrip`ped first). -/
def legacyFolderDir (chat_id pathParam : String) : AbsPath :=
  if sanitize_path pathParam ≠ "" then
    pathJoin (get_sandbox_path chat_id) (sanitize_path pathParam)
  else get_sandbox_path chat_id

/-- `create_sandbox_folder` (`POST /{chat_id}/folders`), the legacy
query-parameter folder-creation route. -/
def create_sandbox_folder (fs : FS) (chat_id folder_name pathParam : String) :
    Except ApiErr String × FS :=
  if ((createReadyFS fs chat_id).lookup
      (resolveNoFollow (createReadyFS fs chat_id)
        (pathJoin (legacyFolderDir chat_id pathParam) folder_name))).isSome then
    (Except.error ApiErr.conflict, createReadyFS fs chat_id)
  else
    (Except.ok folder_name,
     (createReadyFS fs chat_id).mkdirP
       (pathJoin (legacyFolderDir chat_id pathParam) folder_name))

/-- The `old_path` of `rename_sandbox_file`. -/
def renameOld (chat_id file_path : String) : AbsPath :=
  pathJoin (get_sandbox_path chat_id) (sanitize_path (lstripSlash file_path))

/-- The `new_path` of `rename_sandbox_file`:
`old_path.parent / new_name`. -/
def renameNew (chat_id file_path new_name : String) : AbsPath :=
  pathJoin (renameOld chat_id file_path).dropLast new_name

/-- `rename_sandbox_file` (`PUT /{chat_id}/files/{file_path}`), after
JSON parsing: operation/name validation (400), existence of the old
path (404), confinement of the old path (403), sibling target
`old.parent / new_name`, confinement of the new path (403), existing
target (409), then the move; the result is `(new id, new name)`. -/
def rename_sandbox_file (fs : FS) (chat_id file_path operation new_name : String) :
    Except ApiErr (String × String) × FS :=
  if operation ≠ "rename" then (Except.error ApiErr.badRequest, fs)
  else if new_name = "" then (Except.error ApiErr.badRequest, fs)
  else if !(fs.pexists (renameOld chat_id file_path)) then
    (Except.error ApiErr.notFound, fs)
  else if !(confined fs (get_sandbox_path chat_id) (renameOld chat_id file_path)) then
    (Except.error ApiErr.accessDenied, fs)
  else if !(confined fs (get_sandbox_path chat_id)
      (renameNew chat_id file_path new_name)) then
    (Except.error ApiErr.accessDenied, fs)
  else if fs.pexists (renameNew chat_id file_path new_name) then
    (Except.error ApiErr.conflict, fs)
  else
    match relIdOf (get_sandbox_path chat_id) (renameNew chat_id file_path new_name) with
    | some fid =>
      (Except.ok (fid, new_name),
       fs.moveTree (resolveNoFollow fs (renameOld chat_id file_path))
         (resolveNoFollow fs (renameNew chat_id file_path new_name)))
    | none =>
      (Except.error ApiErr.serverError,
       fs.moveTree (resolveNoFollow fs (renameOld chat_id file_path))
         (resolveNoFollow fs (renameNew chat_id file_path new_name)))

/-- The paths strictly below `root` seen by `sandbox_path.rglob("*")`. -/
def subtreePaths (fs : FS) (root : AbsPath) : List AbsPath :=
  fs.entries.filterMap (fun e =>
    if root.isPrefixOf e.1 && !(e.1 == root) then some e.1 else none)

/-- `get_sandbox_info` (`GET /{chat_id}/info`): `(used, total)` where
`used` accumulates `stat().st_size` over the regular files of the
whole subtree and `total` is the fixed 100 MB ceiling. -/
def get_sandbox_info (fs : FS) (chat_id : String) : Nat × Nat :=
  if !(fs.pexists (get_sandbox_path chat_id)) then (0, 100000000)
  else
    (((subtreePaths fs (resolve fs (get_sandbox_path chat_id))).filter
        (fun p => fs.isFile p)).foldl (fun acc p => acc + statSize fs p) 0,
     100000000)

/-! ## Properties of the sanitizer -/

theorem splitSlash_cons_pos {c : Char} (rest : List Char) (hc : c = '/') :
    splitSlash (c :: rest) = [] :: splitSlash rest := by
  rw [splitSlash, if_pos hc]

theorem splitSlash_cons_neg {c : Char} (rest : List Char) (hc : c ≠ '/') :
    splitSlash (c :: rest) =
      (c :: (splitSlash rest).headD []) :: (splitSlash rest).tail := by
  rw [splitSlash, if_neg hc]

theorem rdropSlash_cons_zero {c : Char} {rest : List Char} (h0 : rdropSlash rest = []) :
    rdropSlash (c :: rest) = if c = '/' then [] else [c] := by
  rw [rdropSlash, if_pos h0]

theorem rdropSlash_cons_pos {c : Char} {rest : List Char} (h0 : rdropSlash rest ≠ []) :
    rdropSlash (c :: rest) = c :: rdropSlash rest := by
  rw [rdropSlash, if_neg h0]

theorem splitSlash_ne_nil (l : List Char) : splitSlash l ≠ [] := by
  cases l with
  | nil => simp [splitSlash]
  | cons c rest =>
    by_cases hc : c = '/'
    · rw [splitSlash_cons_pos rest hc]; simp
    · rw [splitSlash_cons_neg rest hc]; simp

theorem headD_mem_splitSlash (l : List Char) : (splitSlash l).headD [] ∈ splitSlash l := by
  cases h : splitSlash l with
  | nil => exact absurd h (splitSlash_ne_nil l)
  | cons s ss => simp

theorem mem_splitSlash_no_slash :
    ∀ (l t : List Char), t ∈ splitSlash l → '/' ∉ t := by
  intro l
  induction l with
  | nil =>
    intro t ht
    simp only [splitSlash, List.mem_singleton] at ht
    simp [ht]
  | cons c rest ih =>
    intro t ht
    by_cases hc : c = '/'
    · rw [splitSlash_cons_pos rest hc] at ht
      rcases List.mem_cons.mp ht with h | h
      · simp [h]
      · exact ih t h
    · rw [splitSlash_cons_neg rest hc] at ht
      rcases List.mem_cons.mp ht with h | h
      · subst h
        intro hmem
        rcases List.mem_cons.mp hmem with h' | h'
        · exact hc h'.symm
        · exact ih _ (headD_mem_splitSlash rest) h'
      · exact ih t (List.tail_subset _ h)

theorem splitSlash_dropWhile (l : List Char) :
    splitSlash (l.dropWhile (· = '/')) <:+ splitSlash l := by
  induction l with
  | nil => exact List.suffix_refl _
  | cons c rest ih =>
    by_cases hc : c = '/'
    · rw [List.dropWhile_cons_of_pos (by simp [hc])]
      rw [splitSlash_cons_pos rest hc]
      exact ih.trans (List.suffix_cons [] (splitSlash rest))
    · rw [List.dropWhile_cons_of_neg (by simp [hc])]

theorem splitSlash_all_nil_of_rdropSlash :
    ∀ l : List Char, rdropSlash l = [] → ∀ t ∈ splitSlash l, t = [] := by
  intro l
  induction l with
  | nil =>
    intro _ t ht
    simpa [splitSlash] using ht
  | cons c rest ih =>
    intro h t ht
    by_cases hzero : rdropSlash rest = []
    · rw [rdropSlash_cons_zero hzero] at h
      by_cases hc : c = '/'
      · rw [splitSlash_cons_pos rest hc] at ht
        rcases List.mem_cons.mp ht with h' | h'
        · exact h'
        · exact ih hzero t h'
      · rw [if_neg hc] at h
        exact absurd h (by simp)
    · rw [rdropSlash_cons_pos hzero] at h
      exact absurd h (by simp)

theorem splitSlash_rdropSlash (l : List Char) :
    splitSlash (rdropSlash l) <+: splitSlash l := by
  induction l with
  | nil => exact List.prefix_refl _
  | cons c rest ih =>
    by_cases hzero : rdropSlash rest = []
    · by_cases hc : c = '/'
      · have h1 : rdropSlash (c :: rest) = [] := by
          rw [rdropSlash_cons_zero hzero, if_pos hc]
        rw [h1, splitSlash_cons_pos rest hc]
        show [[]] <+: [] :: splitSlash rest
        exact List.cons_prefix_cons.mpr ⟨rfl, List.nil_prefix⟩
      · have h1 : rdropSlash (c :: rest) = [c] := by
          rw [rdropSlash_cons_zero hzero, if_neg hc]
        have h2 : splitSlash [c] = [[c]] := by
          rw [splitSlash_cons_neg [] hc]; rfl
        have hhead : (splitSlash rest).headD [] = [] :=
          splitSlash_all_nil_of_rdropSlash rest hzero _ (headD_mem_splitSlash rest)
        rw [h1, h2, splitSlash_cons_neg rest hc, hhead]
        exact List.cons_prefix_cons.mpr ⟨rfl, List.nil_prefix⟩
    · have h1 : rdropSlash (c :: rest) = c :: rdropSlash rest := rdropSlash_cons_pos hzero
      rw [h1]
      by_cases hc : c = '/'
      · rw [splitSlash_cons_pos (rdropSlash rest) hc, splitSlash_cons_pos rest hc]
        exact List.cons_prefix_cons.mpr ⟨rfl, ih⟩
      · rw [splitSlash_cons_neg (rdropSlash rest) hc, splitSlash_cons_neg rest hc]
        obtain ⟨u, hu⟩ := ih
        cases hsa : splitSlash (rdropSlash rest) with
        | nil => exact absurd hsa (splitSlash_ne_nil _)
        | cons s ss =>
          cases hsb : splitSlash rest with
          | nil => exact absurd hsb (splitSlash_ne_nil _)
          | cons s' ss' =>
            rw [hsa, hsb] at hu
            have hs : s = s' := by
              have := congrArg (fun x => x.headD ([] : List Char)) hu
              simpa using this
            have hss : ss ++ u = ss' := by
              have := congrArg List.tail hu
              simpa using this
            simp only [List.headD_cons, List.tail_cons]
            exact List.cons_prefix_cons.mpr ⟨by rw [hs], ⟨u, hss⟩⟩

theorem mem_splitSlash_stripSlash {t l : List Char}
    (h : t ∈ splitSlash (stripSlash l)) : t ∈ splitSlash l := by
  unfold stripSlash at h
  exact (splitSlash_dropWhile l).sublist.subset
    ((splitSlash_rdropSlash (l.dropWhile (· = '/'))).sublist.subset h)

theorem splitSlash_of_no_slash {l : List Char} (h : '/' ∉ l) : splitSlash l = [l] := by
  induction l with
  | nil => rfl
  | cons c rest ih =>
    have hc : c ≠ '/' := fun e => h (by simp [e])
    have hr : '/' ∉ rest := fun hm => h (List.mem_cons_of_mem c hm)
    rw [splitSlash_cons_neg rest hc, ih hr]
    simp

theorem splitSlash_append_cons {s : List Char} (h : '/' ∉ s) (r : List Char) :
    splitSlash (s ++ '/' :: r) = s :: splitSlash r := by
  induction s with
  | nil =>
    simp only [List.nil_append]
    rw [splitSlash_cons_pos r rfl]
  | cons c cs ih =>
    have hc : c ≠ '/' := fun e => h (by simp [e])
    have hcs : '/' ∉ cs := fun hm => h (List.mem_cons_of_mem c hm)
    simp only [List.cons_append]
    rw [splitSlash_cons_neg _ hc, ih hcs]
    simp

theorem splitSlash_joinSegs :
    ∀ segs : List (List Char), segs ≠ [] → (∀ t ∈ segs, t ≠ [] ∧ '/' ∉ t) →
      splitSlash (joinSegs segs) = segs := by
  intro segs
  induction segs with
  | nil => intro h; exact absurd rfl h
  | cons s ss ih =>
    intro _ hclean
    cases ss with
    | nil =>
      show splitSlash (joinSegs [s]) = [s]
      rw [joinSegs]
      exact splitSlash_of_no_slash (hclean s (by simp)).2
    | cons s2 ss2 =>
      have hj : joinSegs (s :: s2 :: ss2) = s ++ '/' :: joinSegs (s2 :: ss2) := rfl
      rw [hj, splitSlash_append_cons (hclean s (by simp)).2,
        ih (by simp) (fun t ht => hclean t (List.mem_cons_of_mem s ht))]

theorem joinSegs_ne_nil {segs : List (List Char)} (hne : segs ≠ [])
    (hclean : ∀ t ∈ segs, t ≠ [] ∧ '/' ∉ t) : joinSegs segs ≠ [] := by
  cases segs with
  | nil => exact absurd rfl hne
  | cons s ss =>
    cases ss with
    | nil => exact (hclean s (by simp)).1
    | cons s2 ss2 =>
      show s ++ '/' :: joinSegs (s2 :: ss2) ≠ []
      simp

theorem joinSegs_head_ne_slash (segs : List (List Char))
    (h : ∀ t ∈ segs, t ≠ [] ∧ '/' ∉ t) : (joinSegs segs).head? ≠ some '/' := by
  cases segs with
  | nil => simp [joinSegs]
  | cons s ss =>
    obtain ⟨hne, hns⟩ := h s (by simp)
    have hh : (joinSegs (s :: ss)).head? = s.head? := by
      cases ss with
      | nil => rfl
      | cons s2 ss2 => exact List.head?_append_of_ne_nil s hne
    rw [hh]
    cases s with
    | nil => exact absurd rfl hne
    | cons a as =>
      simp only [List.head?_cons, ne_eq, Option.some.injEq]
      intro he
      exact hns (by simp [he])

theorem joinSegs_getLast_ne_slash :
    ∀ segs : List (List Char), (∀ t ∈ segs, t ≠ [] ∧ '/' ∉ t) →
      (joinSegs segs).getLast? ≠ some '/' := by
  intro segs
  induction segs with
  | nil => simp [joinSegs]
  | cons s ss ih =>
    intro hclean
    obtain ⟨hne, hns⟩ := hclean s (by simp)
    cases ss with
    | nil =>
      show (joinSegs [s]).getLast? ≠ some '/'
      rw [joinSegs]
      intro he
      obtain ⟨hn, heq⟩ := List.mem_getLast?_eq_getLast (Option.mem_def.mpr he)
      exact hns (heq ▸ List.getLast_mem hn)
    | cons s2 ss2 =>
      have hclean2 : ∀ t ∈ s2 :: ss2, t ≠ [] ∧ '/' ∉ t :=
        fun t ht => hclean t (List.mem_cons_of_mem s ht)
      have hjoin_ne : joinSegs (s2 :: ss2) ≠ [] := joinSegs_ne_nil (by simp) hclean2
      show (s ++ '/' :: joinSegs (s2 :: ss2)).getLast? ≠ some '/'
      rw [List.getLast?_append_of_ne_nil s (by simp)]
      have : ('/' :: joinSegs (s2 :: ss2)) = ['/'] ++ joinSegs (s2 :: ss2) := rfl
      rw [this, List.getLast?_append_of_ne_nil ['/'] hjoin_ne]
      exact ih hclean2

theorem mem_sanitizeSegs_clean {t : List Char} {l : List Char}
    (h : t ∈ sanitizeSegs l) : t ≠ [] ∧ t ≠ ['.'] ∧ t ≠ ['.', '.'] ∧ '/' ∉ t := by
  have hk : keepSeg t = true := List.of_mem_filter h
  have hm := List.mem_of_mem_filter h
  refine ⟨fun he => absurd (he ▸ hk) (by decide),
    fun he => absurd (he ▸ hk) (by decide),
    fun he => absurd (he ▸ hk) (by decide),
    mem_splitSlash_no_slash _ t (mem_splitSlash_stripSlash hm)⟩

theorem mem_sanitizeSegs_mem_decoded {t : List Char} {l : List Char}
    (h : t ∈ sanitizeSegs l) : t ∈ splitSlash (unquoteChars l) :=
  mem_splitSlash_stripSlash (List.mem_of_mem_filter h)

/-! ## Clean paths and symlink-free states -/

/-- A segment that names exactly one child: non-empty, not `.` or
`..`, and without a separator. -/
def cleanSeg (s : String) : Bool :=
  !(s == "") && !(s == ".") && !(s == "..") && !(s.data.contains '/')

/-- Every segment of the path is clean. -/
def cleanPath (p : AbsPath) : Bool :=
  p.all cleanSeg

/-- `true` iff the node is not a symlink. -/
def nodeOk : Node → Bool
  | Node.symlink _ => false
  | _ => true

/-- A normal state: every stored path is made of clean segments, no
node is a symlink, and paths are unique keys.  This is exactly the
class of states the router itself produces (none of its operations
creates a symlink or a non-clean name component). -/
def FS.Normal (fs : FS) : Prop :=
  (∀ e ∈ fs.entries, cleanPath e.1 = true ∧ nodeOk e.2 = true) ∧
  (fs.entries.map Prod.fst).Nodup

instance (fs : FS) : Decidable fs.Normal := by
  unfold FS.Normal
  infer_instance

theorem cleanSeg_facts {s : String} (h : cleanSeg s = true) :
    s ≠ "" ∧ s ≠ "." ∧ s ≠ ".." := by
  unfold cleanSeg at h
  simp only [Bool.and_eq_true, Bool.not_eq_true', beq_eq_false_iff_ne] at h
  exact ⟨h.1.1.1, h.1.1.2, h.1.2⟩

theorem cleanPath_root {chat_id : String} (hc : cleanSeg chat_id = true) :
    cleanPath (get_sandbox_path chat_id) = true := by
  have h1 : cleanSeg "data" = true := by decide
  have h2 : cleanSeg "sandboxes" = true := by decide
  simp [cleanPath, get_sandbox_path, SANDBOX_BASE_PATH, h1, h2, hc]

theorem cleanPath_append {p q : AbsPath} :
    cleanPath (p ++ q) = (cleanPath p && cleanPath q) := by
  simp [cleanPath, List.all_append]

theorem lookup_no_symlink {fs : FS} (hn : fs.Normal) (p t : AbsPath) :
    fs.lookup p ≠ some (Node.symlink t) := by
  intro h
  unfold FS.lookup at h
  cases he : fs.entries.find? (fun e => e.1 = p) with
  | none => rw [he] at h; simp at h
  | some e =>
    rw [he] at h
    simp only [Option.map_some', Option.some.injEq] at h
    have hmem := List.mem_of_find?_eq_some he
    have hok := (hn.1 e hmem).2
    rw [h] at hok
    simp [nodeOk] at hok

theorem resolveAux_clean {fs : FS} (hn : fs.Normal) :
    ∀ p : AbsPath, cleanPath p = true → ∀ (fuel : Nat) (acc : AbsPath),
      p.length ≤ fuel → resolveAux fs fuel acc p = acc ++ p := by
  intro p
  induction p with
  | nil =>
    intro _ fuel acc _
    cases fuel with
    | zero => simp [resolveAux]
    | succ fuel => simp [resolveAux]
  | cons c rest ih =>
    intro hc fuel acc hlen
    have hcs : cleanSeg c = true ∧ cleanPath rest = true := by
      simpa [cleanPath] using hc
    obtain ⟨-, hdot, hdd⟩ := cleanSeg_facts hcs.1
    cases fuel with
    | zero => exact absurd hlen (by simp)
    | succ fuel =>
      have hlen' : rest.length ≤ fuel := Nat.le_of_succ_le_succ hlen
      rw [resolveAux, if_neg hdot, if_neg hdd]
      cases hl : fs.lookup (acc ++ [c]) with
      | none =>
        simp only [hl]
        rw [ih hcs.2 fuel (acc ++ [c]) hlen']
        simp
      | some n =>
        cases n with
        | symlink t => exact absurd hl (lookup_no_symlink hn _ t)
        | file sz m =>
          simp only [hl]
          rw [ih hcs.2 fuel (acc ++ [c]) hlen']
          simp
        | dir m =>
          simp only [hl]
          rw [ih hcs.2 fuel (acc ++ [c]) hlen']
          simp

theorem resolve_clean {fs : FS} (hn : fs.Normal) {p : AbsPath}
    (hc : cleanPath p = true) : resolve fs p = p := by
  unfold resolve
  rw [resolveAux_clean hn p hc (p.length + linkFuel) [] (Nat.le_add_right _ _)]
  simp

theorem find?_eq_of_mem_nodup {l : List (AbsPath × Node)}
    (hnd : (l.map Prod.fst).Nodup) {e : AbsPath × Node} (he : e ∈ l) :
    l.find? (fun x => x.1 = e.1) = some e := by
  induction l with
  | nil => cases he
  | cons a l ih =>
    rcases List.mem_cons.mp he with h | h
    · subst h
      rw [List.find?_cons_of_pos _ (by simp)]
    · rw [List.map_cons] at hnd
      have hpair := List.nodup_cons.mp hnd
      have hne : ¬(a.1 = e.1) := fun heq =>
        hpair.1 (heq ▸ List.mem_map_of_mem Prod.fst h)
      rw [List.find?_cons_of_neg _ (by simpa using hne)]
      exact ih hpair.2 h

theorem lookup_of_mem {fs : FS} (hn : fs.Normal) {e : AbsPath × Node}
    (he : e ∈ fs.entries) : fs.lookup e.1 = some e.2 := by
  unfold FS.lookup
  rw [find?_eq_of_mem_nodup hn.2 he]
  rfl

theorem find?_of_lookup_none {fs : FS} {p : AbsPath} (h : fs.lookup p = none) :
    fs.entries.find? (fun e => e.1 = p) = none := by
  unfold FS.lookup at h
  cases hf : fs.entries.find? (fun e => e.1 = p) with
  | none => rfl
  | some e => rw [hf] at h; simp at h

theorem not_mem_keys_of_lookup_none {fs : FS} {p : AbsPath}
    (h : fs.lookup p = none) : ∀ e ∈ fs.entries, e.1 ≠ p := by
  intro e he
  have := List.find?_eq_none.mp (find?_of_lookup_none h) e he
  simpa using this

theorem lookup_insert_self {fs : FS} {p : AbsPath} {n : Node}
    (h : fs.lookup p = none) : (fs.insert p n).lookup p = some n := by
  show ((fs.entries ++ [(p, n)]).find? (fun e => e.1 = p)).map Prod.snd = some n
  rw [List.find?_append, find?_of_lookup_none h]
  simp

theorem lookup_insert_ne {fs : FS} {p q : AbsPath} {n : Node}
    (hq : q ≠ p) : (fs.insert p n).lookup q = fs.lookup q := by
  show ((fs.entries ++ [(p, n)]).find? (fun e => e.1 = q)).map Prod.snd = fs.lookup q
  rw [List.find?_append]
  cases hf : fs.entries.find? (fun e => e.1 = q) with
  | some e =>
    unfold FS.lookup
    rw [hf]
    simp
  | none =>
    unfold FS.lookup
    rw [hf]
    have hred : Option.none.or (List.find? (fun e => e.1 = q) [(p, n)]) =
        List.find? (fun e => e.1 = q) [(p, n)] := rfl
    rw [hred, List.find?_cons_of_neg _ (by simpa using Ne.symm hq)]
    simp [List.find?_nil]

theorem Normal_insert {fs : FS} {p : AbsPath} {n : Node} (hn : fs.Normal)
    (hclean : cleanPath p = true) (hok : nodeOk n = true)
    (habs : fs.lookup p = none) : (fs.insert p n).Normal := by
  constructor
  · intro e he
    rcases List.mem_append.mp he with h | h
    · exact hn.1 e h
    · have : e = (p, n) := by simpa using h
      subst this
      exact ⟨hclean, hok⟩
  · show ((fs.entries ++ [(p, n)]).map Prod.fst).Nodup
    rw [List.map_append]
    apply List.Nodup.append hn.2 (by simp)
    intro a ha hb
    have hap : a = p := by simpa using hb
    obtain ⟨e, he, heq⟩ := List.mem_map.mp ha
    exact not_mem_keys_of_lookup_none habs e he (heq.trans hap)

/-- `isDirNode o` holds when the optional node is a directory. -/
def isDirNode : Option Node → Bool
  | some (Node.dir _) => true
  | _ => false

theorem isDirNode_elim {o : Option Node} (h : isDirNode o = true) :
    ∃ m, o = some (Node.dir m) := by
  cases o with
  | none => simp [isDirNode] at h
  | some n =>
    cases n with
    | dir m => exact ⟨m, rfl⟩
    | file sz m => simp [isDirNode] at h
    | symlink t => simp [isDirNode] at h

/-- The three directories every materialized sandbox rests on. -/
def baseOk (fs : FS) (chat_id : String) : Prop :=
  isDirNode (fs.lookup ["data"]) = true ∧
  isDirNode (fs.lookup ["data", "sandboxes"]) = true ∧
  isDirNode (fs.lookup (get_sandbox_path chat_id)) = true

instance (fs : FS) (chat_id : String) : Decidable (baseOk fs chat_id) := by
  unfold baseOk
  infer_instance

theorem mkdirP_noop {fs : FS} {chat_id : String} (hc : cleanSeg chat_id = true)
    (hb : baseOk fs chat_id) : fs.mkdirP (get_sandbox_path chat_id) = fs := by
  obtain ⟨m1, h1⟩ := isDirNode_elim hb.1
  obtain ⟨m2, h2⟩ := isDirNode_elim hb.2.1
  obtain ⟨m3, h3⟩ := isDirNode_elim hb.2.2
  simp only [get_sandbox_path, SANDBOX_BASE_PATH, List.cons_append, List.nil_append] at h3
  obtain ⟨-, hdot, hdd⟩ := cleanSeg_facts hc
  show mkdirGo fs [] ["data", "sandboxes", chat_id] = fs
  rw [mkdirGo, if_neg (by decide), if_neg (by decide)]
  simp only [List.nil_append, h1]
  rw [mkdirGo, if_neg (by decide), if_neg (by decide)]
  simp only [List.singleton_append, h2]
  rw [mkdirGo, if_neg hdot, if_neg hdd]
  simp only [List.cons_append, List.singleton_append, List.nil_append, h3]
  rw [mkdirGo]

/-! ## Ordering of listings -/

theorem listCharLT_asymm : ∀ {x y : List Char}, listCharLT x y = true → listCharLT y x = false := by
  intro x
  induction x with
  | nil =>
    intro y h
    cases y with
    | nil => simp [listCharLT] at h
    | cons b bs => simp [listCharLT]
  | cons a as ih =>
    intro y h
    cases y with
    | nil => simp [listCharLT] at h
    | cons b bs =>
      by_cases hab : a = b
      · subst hab
        rw [listCharLT, if_pos rfl] at h
        rw [listCharLT, if_pos rfl]
        exact ih h
      · rw [listCharLT, if_neg hab] at h
        rw [listCharLT, if_neg (fun e => hab e.symm)]
        simp only [decide_eq_true_eq] at h
        simp only [decide_eq_false_iff_not]
        exact fun hba => absurd h (lt_asymm hba)

theorem listCharLT_negtrans : ∀ {x y z : List Char}, listCharLT x z = true →
    listCharLT x y = true ∨ listCharLT y z = true := by
  intro x
  induction x with
  | nil =>
    intro y z h
    cases z with
    | nil => simp [listCharLT] at h
    | cons c cs =>
      cases y with
      | nil => right; simp [listCharLT]
      | cons b bs => left; simp [listCharLT]
  | cons a as ih =>
    intro y z h
    cases z with
    | nil =>
      cases y with
      | nil => simp [listCharLT] at h
      | cons b bs => simp [listCharLT] at h
    | cons c cs =>
      cases y with
      | nil => right; simp [listCharLT]
      | cons b bs =>
        by_cases hac : a = c
        · subst hac
          rw [listCharLT, if_pos rfl] at h
          by_cases hab : a = b
          · subst hab
            rw [listCharLT, if_pos rfl, listCharLT, if_pos rfl]
            exact ih h
          · rw [listCharLT, if_neg hab, listCharLT, if_neg (fun e => hab e.symm)]
            rcases lt_or_gt_of_ne hab with hlt | hgt
            · left; simpa using hlt
            · right; simpa using hgt
        · rw [listCharLT, if_neg hac] at h
          simp only [decide_eq_true_eq] at h
          by_cases hab : a = b
          · subst hab
            right
            rw [listCharLT, if_neg hac]
            simpa using h
          · rcases lt_or_gt_of_ne hab with hlt | hgt
            · left
              rw [listCharLT, if_neg hab]
              simpa using hlt
            · right
              have hbc : b < c := lt_trans hgt h
              rw [listCharLT, if_neg (ne_of_lt hbc)]
              simpa using hbc

theorem keyLT_asymm {k1 k2 : Bool × List Char} (h : keyLT k1 k2 = true) :
    keyLT k2 k1 = false := by
  obtain ⟨f1, s1⟩ := k1
  obtain ⟨f2, s2⟩ := k2
  simp only [keyLT, Bool.or_eq_true, Bool.and_eq_true, Bool.not_eq_true', beq_iff_eq] at h
  simp only [keyLT, Bool.or_eq_false_iff, Bool.and_eq_false_iff]
  cases f1 <;> cases f2 <;> simp_all
  · exact listCharLT_asymm h
  · exact listCharLT_asymm h

theorem keyLT_negtrans {k1 k2 k3 : Bool × List Char} (h : keyLT k1 k3 = true) :
    keyLT k1 k2 = true ∨ keyLT k2 k3 = true := by
  obtain ⟨f1, s1⟩ := k1
  obtain ⟨f2, s2⟩ := k2
  obtain ⟨f3, s3⟩ := k3
  simp only [keyLT, Bool.or_eq_true, Bool.and_eq_true, Bool.not_eq_true', beq_iff_eq] at h ⊢
  cases f1 <;> cases f2 <;> cases f3 <;> simp_all
  · exact listCharLT_negtrans h
  · exact listCharLT_negtrans h

instance : IsTotal Entry entryRel where
  total a b := by
    unfold entryRel
    cases hab : keyLT (entryKey b) (entryKey a) with
    | false => exact Or.inl rfl
    | true => exact Or.inr (keyLT_asymm hab)

instance : IsTrans Entry entryRel where
  trans a b c hab hbc := by
    unfold entryRel at *
    cases hca : keyLT (entryKey c) (entryKey a) with
    | false => rfl
    | true =>
      rcases @keyLT_negtrans (entryKey c) (entryKey b) (entryKey a) hca with h | h
      · rw [hbc] at h; cases h
      · rw [hab] at h; cases h

/-- Case-insensitive non-strict string order (the complement of the
strict order the sort key uses). -/
def listCharLE (x y : List Char) : Bool :=
  !(listCharLT y x)

/-- The ordering the spec promises for a listing: folders strictly
before files, and within one kind case-insensitive lexicographic order
of the identifiers. -/
def entryOrdered (a b : Entry) : Prop :=
  (a.type = "folder" ∧ b.type = "file") ∨
  ((a.type = "file" ↔ b.type = "file") ∧
    listCharLE (strLower a.id).data (strLower b.id).data = true)

theorem keyLT_same (f : Bool) (x y : List Char) : keyLT (f, x) (f, y) = listCharLT x y := by
  cases f <;> simp [keyLT]

theorem keyLT_folder_file (x y : List Char) : keyLT (false, x) (true, y) = true := by
  simp [keyLT]

theorem entryKey_file {a : Entry} (h : a.type = "file") :
    entryKey a = (true, (strLower a.id).data) := by
  simp [entryKey, h]

theorem entryKey_folder {a : Entry} (h : a.type = "folder") :
    entryKey a = (false, (strLower a.id).data) := by
  simp [entryKey, h]

theorem entryRel_entryOrdered {a b : Entry}
    (hta : a.type = "file" ∨ a.type = "folder")
    (htb : b.type = "file" ∨ b.type = "folder")
    (h : entryRel a b) : entryOrdered a b := by
  unfold entryRel at h
  unfold entryOrdered listCharLE
  rcases hta with hta | hta <;> rcases htb with htb | htb
  · rw [entryKey_file hta, entryKey_file htb, keyLT_same] at h
    right
    rw [h]
    exact ⟨by rw [hta, htb], rfl⟩
  · rw [entryKey_file hta, entryKey_folder htb, keyLT_folder_file] at h
    cases h
  · left
    exact ⟨hta, htb⟩
  · rw [entryKey_folder hta, entryKey_folder htb, keyLT_same] at h
    right
    rw [h]
    exact ⟨by rw [hta, htb], rfl⟩

theorem mem_childEntry_type {fs : FS} {rel : String} {cur : AbsPath} {n : String}
    {e : Entry} (h : childEntry fs rel cur n = some e) :
    e.type = "file" ∨ e.type = "folder" := by
  unfold childEntry at h
  split at h
  · left
    cases h
    rfl
  · split at h
    · right
      cases h
      rfl
    · cases h

theorem mem_build_file_tree_type {fs : FS} {base : AbsPath} {rel : String}
    {e : Entry} (h : e ∈ build_file_tree fs base rel) :
    e.type = "file" ∨ e.type = "folder" := by
  unfold build_file_tree at h
  split at h
  · cases h
  · have hmem := (List.perm_insertionSort entryRel _).mem_iff.mp h
    obtain ⟨n, -, hn⟩ := List.mem_filterMap.mp hmem
    exact mem_childEntry_type hn

theorem build_file_tree_pairwise (fs : FS) (base : AbsPath) (rel : String) :
    (build_file_tree fs base rel).Pairwise entryOrdered := by
  have hs : (build_file_tree fs base rel).Pairwise entryRel := by
    unfold build_file_tree
    split
    · exact List.Pairwise.nil
    · exact List.sorted_insertionSort entryRel _
  refine List.Pairwise.imp_of_mem ?_ hs
  intro a b ha hb hr
  exact entryRel_entryOrdered (mem_build_file_tree_type ha) (mem_build_file_tree_type hb) hr

/-! ## Helpers for the operation-level theorems -/

theorem isPrefixOf_append_self (l r : List String) : l.isPrefixOf (l ++ r) = true := by
  induction l with
  | nil => simp [List.isPrefixOf]
  | cons a as ih => simp [List.isPrefixOf, ih]

theorem isPrefixOf_true_iff {l₁ l₂ : List String} :
    l₁.isPrefixOf l₂ = true ↔ ∃ t, l₂ = l₁ ++ t := by
  rw [ List.isPrefixOf_iff_prefix]
  exact ⟨fun ⟨t, ht⟩ => ⟨t, ht.symm⟩, fun ⟨t, ht⟩ => ⟨t, ht.symm⟩⟩

theorem statNode_clean {fs : FS} (hn : fs.Normal) {p : AbsPath}
    (hc : cleanPath p = true) : statNode fs p = fs.lookup p := by
  unfold statNode
  rw [resolve_clean hn hc]

theorem confined_clean {fs : FS} (hn : fs.Normal) {root target : AbsPath}
    (hr : cleanPath root = true) (ht : cleanPath target = true) :
    confined fs root target = root.isPrefixOf target := by
  unfold confined
  rw [resolve_clean hn hr, resolve_clean hn ht]

theorem pathJoin_empty (base : AbsPath) : pathJoin base "" = base := by
  rw [pathJoin, if_neg (by decide)]
  rw [(by decide : pathSegsOfString "" = [])]
  simp

theorem pathJoin_of_segs {s : String} {segs : List String} (base : AbsPath)
    (hhead : ¬(s.data.head? = some '/')) (hsegs : pathSegsOfString s = segs) :
    pathJoin base s = base ++ segs := by
  rw [pathJoin, if_neg hhead, hsegs]

/-! ## Concrete states used by witnesses and counterexamples -/

/-- A materialized, empty sandbox for chat `chatA`. -/
def fsPlain : FS :=
  ⟨[(["data"], Node.dir 0), (["data", "sandboxes"], Node.dir 0),
    (["data", "sandboxes", "chatA"], Node.dir 0)]⟩

/-- A sandbox containing a symlink whose target is an existing file
outside the sandbox root. -/
def fsLinkOut : FS :=
  ⟨[(["data"], Node.dir 0), (["data", "sandboxes"], Node.dir 0),
    (["data", "sandboxes", "chatC"], Node.dir 0),
    (["data", "sandboxes", "chatC", "link"], Node.symlink ["outside", "f"]),
    (["outside"], Node.dir 0), (["outside", "f"], Node.file 5 7)]⟩

/-- A sandbox containing a dangling symlink pointing outside the root. -/
def fsLinkBroken : FS :=
  ⟨[(["data"], Node.dir 0), (["data", "sandboxes"], Node.dir 0),
    (["data", "sandboxes", "chatB"], Node.dir 0),
    (["data", "sandboxes", "chatB", "link"], Node.symlink ["outside", "gone"])]⟩

/-- A sandbox holding `/docs/a.txt`. -/
def fsDocs : FS :=
  ⟨[(["data"], Node.dir 0), (["data", "sandboxes"], Node.dir 0),
    (["data", "sandboxes", "chatD"], Node.dir 0),
    (["data", "sandboxes", "chatD", "docs"], Node.dir 0),
    (["data", "sandboxes", "chatD", "docs", "a.txt"], Node.file 3 1)]⟩

/-- `fsDocs` with `/docs/b.txt` also present. -/
def fsDocsB : FS :=
  ⟨fsDocs.entries ++ [(["data", "sandboxes", "chatD", "docs", "b.txt"], Node.file 9 2)]⟩

/-- A sandbox with files of sizes 10 and 20 bytes in two subfolders. -/
def fsInfo : FS :=
  ⟨[(["data"], Node.dir 0), (["data", "sandboxes"], Node.dir 0),
    (["data", "sandboxes", "c9"], Node.dir 0),
    (["data", "sandboxes", "c9", "s1"], Node.dir 0),
    (["data", "sandboxes", "c9", "s1", "f1"], Node.file 10 1),
    (["data", "sandboxes", "c9", "s2"], Node.dir 0),
    (["data", "sandboxes", "c9", "s2", "f2"], Node.file 20 1)]⟩

/-! ## Claim C2 -/

/-- C2 (amended): for every input, every surviving segment of
`sanitize_path` is non-empty, not `.`, not `..` and separator-free;
every output segment is one of the segments of the URL-decoded input
(segments are only dropped, never created — in particular a `..`
segment is dropped, not applied); the output neither begins nor ends
with `/`; and the quoted examples hold with
`sanitize_path "a//b/./c/../d" = "a/b/c/d"` (the claim's value
`"a/b/d"` is what applying `..` would give, which the code does not
do). -/
theorem c2_sanitize_only_drops_segments (s : String) :
    (∀ t ∈ sanitizeSegs s.data, t ≠ [] ∧ t ≠ ['.'] ∧ t ≠ ['.', '.'] ∧ '/' ∉ t) ∧
    (∀ t ∈ sanitizeSegs s.data, t ∈ splitSlash (unquoteChars s.data)) ∧
    (sanitize_path s).data.head? ≠ some '/' ∧
    (sanitize_path s).data.getLast? ≠ some '/' ∧
    (sanitizeSegs s.data ≠ [] → splitSlash (sanitize_path s).data = sanitizeSegs s.data) ∧
    sanitize_path "" = "" ∧
    sanitize_path "../../etc/passwd" = "etc/passwd" ∧
    sanitize_path "a//b/./c/../d" = "a/b/c/d" := by
  have hclean : ∀ t ∈ sanitizeSegs s.data, t ≠ [] ∧ '/' ∉ t := fun t ht =>
    ⟨(mem_sanitizeSegs_clean ht).1, (mem_sanitizeSegs_clean ht).2.2.2⟩
  refine ⟨fun t ht => mem_sanitizeSegs_clean ht,
    fun t ht => mem_sanitizeSegs_mem_decoded ht, ?_, ?_, ?_, by decide, by decide, by decide⟩
  · show (joinSegs (sanitizeSegs s.data)).head? ≠ some '/'
    exact joinSegs_head_ne_slash _ hclean
  · show (joinSegs (sanitizeSegs s.data)).getLast? ≠ some '/'
    exact joinSegs_getLast_ne_slash _ hclean
  · intro hne
    show splitSlash (joinSegs (sanitizeSegs s.data)) = sanitizeSegs s.data
    exact splitSlash_joinSegs _ hne hclean

/-- Witness for C2 at the concrete input `"../../etc/passwd"` and its
surviving segment `etc`. -/
theorem c2_sanitize_only_drops_segments_witness :
    (['e', 't', 'c'] ≠ [] ∧ ['e', 't', 'c'] ≠ ['.'] ∧ ['e', 't', 'c'] ≠ ['.', '.'] ∧
      '/' ∉ ['e', 't', 'c']) ∧
    ['e', 't', 'c'] ∈ splitSlash (unquoteChars "../../etc/passwd".data) ∧
    splitSlash (sanitize_path "../../etc/passwd").data =
      sanitizeSegs "../../etc/passwd".data :=
  ⟨(c2_sanitize_only_drops_segments "../../etc/passwd").1 ['e', 't', 'c'] (by decide),
   (c2_sanitize_only_drops_segments "../../etc/passwd").2.1 ['e', 't', 'c'] (by decide),
   (c2_sanitize_only_drops_segments "../../etc/passwd").2.2.2.2.1 (by decide)⟩

/-- C2 counterexample: on `"a//b/./c/../d"` the sanitizer drops the
`..` segment instead of applying it, so the output is `"a/b/c/d"`,
not the claimed `"a/b/d"`. -/
theorem c2_counterexample :
    sanitize_path "a//b/./c/../d" = "a/b/c/d" ∧
    sanitize_path "a//b/./c/../d" ≠ "a/b/d" :=
  ⟨by decide, by decide⟩

/-! ## Claim C7 -/

/-- C7: when the directory a listing targets does not exist, the
listing is the empty sequence rather than an error — both at the
`build_file_tree` level for any state, and through the route on a
sandbox that was never materialized (listing a subfolder and the
root). -/
theorem c7_list_missing_is_empty :
    (∀ (fs : FS) (base : AbsPath) (rel : String),
      fs.pexists (buildCurrent base rel) = false → build_file_tree fs base rel = []) ∧
    (list_sandbox_files ⟨[]⟩ "chatA" (some "sub") "").1 = [] ∧
    (list_sandbox_files ⟨[]⟩ "chatA" none "").1 = [] := by
  refine ⟨fun fs base rel h => ?_, by decide, by decide⟩
  unfold build_file_tree
  rw [h]
  simp

/-- Witness for C7: a listing of a missing subfolder of an empty state. -/
theorem c7_list_missing_is_empty_witness :
    build_file_tree ⟨[]⟩ ["data"] "sub" = [] :=
  c7_list_missing_is_empty.1 ⟨[]⟩ ["data"] "sub" (by decide)

/-! ## Claim C8 -/

/-- C8: every listing the route returns is sorted: folder entries
before file entries, and inside one kind ascending in the
case-insensitive identifier. -/
theorem c8_listing_sorted (fs : FS) (chat_id : String) (folder_id : Option String)
    (idq : String) :
    ((list_sandbox_files fs chat_id folder_id idq).1).Pairwise entryOrdered :=
  build_file_tree_pairwise _ _ _

/-! ## Confinement-failure behavior of download, delete and rename -/

theorem download_accessDenied_of_unconfined (fs : FS) (chat_id file_path : String)
    (hex : fs.pexists (opTarget chat_id file_path) = true)
    (hf : fs.isFile (opTarget chat_id file_path) = true)
    (hconf : confined fs (get_sandbox_path chat_id) (opTarget chat_id file_path) = false) :
    download_sandbox_file fs chat_id file_path = Except.error ApiErr.accessDenied := by
  unfold download_sandbox_file
  rw [hex, hf, hconf]
  simp

theorem delete_accessDenied_of_unconfined (fs : FS) (chat_id file_path : String)
    (hex : fs.pexists (opTarget chat_id file_path) = true)
    (hconf : confined fs (get_sandbox_path chat_id) (opTarget chat_id file_path) = false) :
    delete_sandbox_file fs chat_id file_path = (Except.error ApiErr.accessDenied, fs) := by
  unfold delete_sandbox_file
  rw [hex, hconf]
  simp

theorem rename_accessDenied_of_unconfined (fs : FS) (chat_id file_path new_name : String)
    (hn : new_name ≠ "")
    (hex : fs.pexists (renameOld chat_id file_path) = true)
    (hconf : confined fs (get_sandbox_path chat_id) (renameOld chat_id file_path) = false) :
    rename_sandbox_file fs chat_id file_path "rename" new_name =
      (Except.error ApiErr.accessDenied, fs) := by
  unfold rename_sandbox_file
  rw [if_neg (by decide), if_neg hn, hex, hconf]
  simp

/-! ## Claim C1 -/

/-- C1 (amended): only Download, Delete and Rename resolve the target
and verify that the resolved sandbox root is among its ancestors;
when that check fails (on an existing target — the existence check
runs first) they fail with AccessDenied and leave the state unchanged.
List, Upload and CreateEntry perform no such post-resolution check;
in particular Upload joins the raw filename, so a crafted filename
escapes the root (see the counterexample). -/
theorem c1_confinement_only_download_delete_rename :
    (∀ (fs : FS) (chat_id file_path : String),
      fs.pexists (opTarget chat_id file_path) = true →
      fs.isFile (opTarget chat_id file_path) = true →
      confined fs (get_sandbox_path chat_id) (opTarget chat_id file_path) = false →
      download_sandbox_file fs chat_id file_path = Except.error ApiErr.accessDenied) ∧
    (∀ (fs : FS) (chat_id file_path : String),
      fs.pexists (opTarget chat_id file_path) = true →
      confined fs (get_sandbox_path chat_id) (opTarget chat_id file_path) = false →
      delete_sandbox_file fs chat_id file_path = (Except.error ApiErr.accessDenied, fs)) ∧
    (∀ (fs : FS) (chat_id file_path new_name : String),
      new_name ≠ "" →
      fs.pexists (renameOld chat_id file_path) = true →
      confined fs (get_sandbox_path chat_id) (renameOld chat_id file_path) = false →
      rename_sandbox_file fs chat_id file_path "rename" new_name =
        (Except.error ApiErr.accessDenied, fs)) :=
  ⟨download_accessDenied_of_unconfined, delete_accessDenied_of_unconfined,
   rename_accessDenied_of_unconfined⟩

/-- Witness for C1 on a sandbox whose `link` is a symlink to the
existing outside file `/outside/f`. -/
theorem c1_confinement_witness :
    download_sandbox_file fsLinkOut "chatC" "link" = Except.error ApiErr.accessDenied ∧
    delete_sandbox_file fsLinkOut "chatC" "link" =
      (Except.error ApiErr.accessDenied, fsLinkOut) ∧
    rename_sandbox_file fsLinkOut "chatC" "link" "rename" "x" =
      (Except.error ApiErr.accessDenied, fsLinkOut) :=
  ⟨c1_confinement_only_download_delete_rename.1 fsLinkOut "chatC" "link"
     (by decide) (by decide) (by decide),
   c1_confinement_only_download_delete_rename.2.1 fsLinkOut "chatC" "link"
     (by decide) (by decide),
   c1_confinement_only_download_delete_rename.2.2 fsLinkOut "chatC" "link" "x"
     (by decide) (by decide) (by decide)⟩

/-- C1 counterexample: Upload performs no confinement check at all.
On a plain sandbox for `chatA`, uploading a file named `../evil`
succeeds and writes `data/sandboxes/evil` — a location outside the
resolved sandbox root — with no AccessDenied and a filesystem
mutation. -/
theorem c1_counterexample :
    fsPlain.lookup ["data", "sandboxes", "evil"] = none ∧
    (upload_sandbox_file fsPlain "chatA" "../evil" 7 "").1 = Except.ok "../evil" ∧
    ((upload_sandbox_file fsPlain "chatA" "../evil" 7 "").2).lookup
      ["data", "sandboxes", "evil"] = some (Node.file 7 0) ∧
    (resolve (upload_sandbox_file fsPlain "chatA" "../evil" 7 "").2
        (get_sandbox_path "chatA")).isPrefixOf ["data", "sandboxes", "evil"] = false :=
  ⟨by decide, by decide, by decide, by decide⟩

/-! ## Claim C3 -/

/-- C3 (amended): when a path's resolved location escapes the sandbox
root and the target exists (for Download: exists and is a regular
file), Download, Delete and Rename fail with AccessDenied and not with
NotFound.  The existence restriction is forced by the counterexample:
the existence check runs before the confinement check, so a dangling
symlink that resolves outside the root yields NotFound. -/
theorem c3_escape_is_accessDenied :
    (∀ (fs : FS) (chat_id file_path : String),
      fs.pexists (opTarget chat_id file_path) = true →
      fs.isFile (opTarget chat_id file_path) = true →
      confined fs (get_sandbox_path chat_id) (opTarget chat_id file_path) = false →
      download_sandbox_file fs chat_id file_path = Except.error ApiErr.accessDenied ∧
      download_sandbox_file fs chat_id file_path ≠ Except.error ApiErr.notFound) ∧
    (∀ (fs : FS) (chat_id file_path : String),
      fs.pexists (opTarget chat_id file_path) = true →
      confined fs (get_sandbox_path chat_id) (opTarget chat_id file_path) = false →
      (delete_sandbox_file fs chat_id file_path).1 = Except.error ApiErr.accessDenied ∧
      (delete_sandbox_file fs chat_id file_path).1 ≠ Except.error ApiErr.notFound) ∧
    (∀ (fs : FS) (chat_id file_path new_name : String),
      new_name ≠ "" →
      fs.pexists (renameOld chat_id file_path) = true →
      confined fs (get_sandbox_path chat_id) (renameOld chat_id file_path) = false →
      (rename_sandbox_file fs chat_id file_path "rename" new_name).1 =
        Except.error ApiErr.accessDenied ∧
      (rename_sandbox_file fs chat_id file_path "rename" new_name).1 ≠
        Except.error ApiErr.notFound) := by
  refine ⟨fun fs c f hex hf hconf => ?_, fun fs c f hex hconf => ?_,
    fun fs c f n hn hex hconf => ?_⟩
  · rw [download_accessDenied_of_unconfined fs c f hex hf hconf]
    exact ⟨rfl, by decide⟩
  · rw [delete_accessDenied_of_unconfined fs c f hex hconf]
    exact ⟨rfl, fun hcon => by simp at hcon⟩
  · rw [rename_accessDenied_of_unconfined fs c f n hn hex hconf]
    exact ⟨rfl, fun hcon => by simp at hcon⟩

/-- Witness for C3 on the symlink-to-outside-file sandbox. -/
theorem c3_escape_is_accessDenied_witness :
    (download_sandbox_file fsLinkOut "chatC" "link" = Except.error ApiErr.accessDenied ∧
      download_sandbox_file fsLinkOut "chatC" "link" ≠ Except.error ApiErr.notFound) ∧
    ((delete_sandbox_file fsLinkOut "chatC" "link").1 = Except.error ApiErr.accessDenied ∧
      (delete_sandbox_file fsLinkOut "chatC" "link").1 ≠ Except.error ApiErr.notFound) :=
  ⟨c3_escape_is_accessDenied.1 fsLinkOut "chatC" "link" (by decide) (by decide) (by decide),
   c3_escape_is_accessDenied.2.1 fsLinkOut "chatC" "link" (by decide) (by decide)⟩

/-- C3 counterexample: in a sandbox whose `link` is a dangling symlink
to `outside/gone`, the sanitized path still resolves outside the root,
yet Download, Delete and Rename all answer NotFound (the existence
check runs first), not AccessDenied. -/
theorem c3_counterexample :
    confined fsLinkBroken (get_sandbox_path "chatB") (opTarget "chatB" "link") = false ∧
    download_sandbox_file fsLinkBroken "chatB" "link" = Except.error ApiErr.notFound ∧
    delete_sandbox_file fsLinkBroken "chatB" "link" =
      (Except.error ApiErr.notFound, fsLinkBroken) ∧
    rename_sandbox_file fsLinkBroken "chatB" "link" "rename" "x" =
      (Except.error ApiErr.notFound, fsLinkBroken) ∧
    (Except.error ApiErr.notFound : Except ApiErr AbsPath) ≠
      Except.error ApiErr.accessDenied :=
  ⟨by decide, by decide, by decide, by decide, by decide⟩

/-! ## Claim C4 -/

/-- C4: renaming the existing entry `/docs/a.txt` to `b.txt` answers an
entry whose id is `"/docs/b.txt"` (first conjunct, for any normal state
that holds `docs/a.txt` and no `docs/b.txt`); and every rename whose
sibling target already exists — with the old path present and both
paths confined, the checks that run first — fails with Conflict and
returns the state unchanged (second conjunct). -/
theorem c4_rename_id_and_conflict :
    (∀ (fs : FS) (chat_id : String) (sz mt : Nat),
      fs.Normal → cleanSeg chat_id = true →
      fs.lookup (get_sandbox_path chat_id ++ ["docs", "a.txt"]) = some (Node.file sz mt) →
      fs.lookup (get_sandbox_path chat_id ++ ["docs", "b.txt"]) = none →
      (rename_sandbox_file fs chat_id "/docs/a.txt" "rename" "b.txt").1 =
        Except.ok ("/docs/b.txt", "b.txt")) ∧
    (∀ (fs : FS) (chat_id file_path new_name : String),
      new_name ≠ "" →
      fs.pexists (renameOld chat_id file_path) = true →
      confined fs (get_sandbox_path chat_id) (renameOld chat_id file_path) = true →
      confined fs (get_sandbox_path chat_id) (renameNew chat_id file_path new_name) = true →
      fs.pexists (renameNew chat_id file_path new_name) = true →
      rename_sandbox_file fs chat_id file_path "rename" new_name =
        (Except.error ApiErr.conflict, fs)) := by
  constructor
  · intro fs chat_id sz mt hn hc ha hb
    have hro : renameOld chat_id "/docs/a.txt" =
        get_sandbox_path chat_id ++ ["docs", "a.txt"] := by
      unfold renameOld
      rw [(by decide : sanitize_path (lstripSlash "/docs/a.txt") = "docs/a.txt")]
      exact pathJoin_of_segs _ (by decide) (by decide)
    have hcr : cleanPath (get_sandbox_path chat_id) = true := cleanPath_root hc
    have hca : cleanPath (get_sandbox_path chat_id ++ ["docs", "a.txt"]) = true := by
      rw [cleanPath_append, hcr]
      decide
    have hcb : cleanPath (get_sandbox_path chat_id ++ ["docs", "b.txt"]) = true := by
      rw [cleanPath_append, hcr]
      decide
    have hex : fs.pexists (renameOld chat_id "/docs/a.txt") = true := by
      rw [hro]
      unfold FS.pexists
      rw [statNode_clean hn hca, ha]
      rfl
    have hconf1 : confined fs (get_sandbox_path chat_id)
        (renameOld chat_id "/docs/a.txt") = true := by
      rw [hro, confined_clean hn hcr hca]
      exact isPrefixOf_append_self _ _
    have hrn : renameNew chat_id "/docs/a.txt" "b.txt" =
        get_sandbox_path chat_id ++ ["docs", "b.txt"] := by
      unfold renameNew
      rw [hro, List.dropLast_append_of_ne_nil _ (by simp)]
      rw [(by decide : (["docs", "a.txt"] : List String).dropLast = ["docs"])]
      rw [@pathJoin_of_segs "b.txt" ["b.txt"] _ (by decide) (by decide), List.append_assoc]
      rfl
    have hconf2 : confined fs (get_sandbox_path chat_id)
        (renameNew chat_id "/docs/a.txt" "b.txt") = true := by
      rw [hrn, confined_clean hn hcr hcb]
      exact isPrefixOf_append_self _ _
    have hnex : fs.pexists (renameNew chat_id "/docs/a.txt" "b.txt") = false := by
      rw [hrn]
      unfold FS.pexists
      rw [statNode_clean hn hcb, hb]
      rfl
    have hrel : relIdOf (get_sandbox_path chat_id)
        (renameNew chat_id "/docs/a.txt" "b.txt") = some "/docs/b.txt" := by
      rw [hrn]
      unfold relIdOf
      rw [if_pos (isPrefixOf_append_self _ _), List.drop_left]
      rfl
    unfold rename_sandbox_file
    rw [if_neg (by decide), if_neg (by decide : ("b.txt" : String) ≠ ""),
      hex, hconf1, hconf2, hnex, hrel]
    simp
  · intro fs chat_id file_path new_name hn hex hc1 hc2 hnex
    unfold rename_sandbox_file
    rw [if_neg (by decide), if_neg hn, hex, hc1, hc2, hnex]
    simp

/-- Witness for C4: the concrete `/docs/a.txt` sandbox, renamed
successfully, and its variant with `/docs/b.txt` present answering
Conflict with the state unchanged. -/
theorem c4_rename_id_and_conflict_witness :
    (rename_sandbox_file fsDocs "chatD" "/docs/a.txt" "rename" "b.txt").1 =
      Except.ok ("/docs/b.txt", "b.txt") ∧
    rename_sandbox_file fsDocsB "chatD" "/docs/a.txt" "rename" "b.txt" =
      (Except.error ApiErr.conflict, fsDocsB) :=
  ⟨c4_rename_id_and_conflict.1 fsDocs "chatD" 3 1 (by decide) (by decide)
     (by decide) (by decide),
   c4_rename_id_and_conflict.2 fsDocsB "chatD" "/docs/a.txt" "b.txt"
     (by decide) (by decide) (by decide) (by decide) (by decide)⟩

/-! ## Helpers for creation -/

theorem head?_mem {c : Char} {l : List Char} (h : l.head? = some c) : c ∈ l := by
  cases l with
  | nil => cases h
  | cons a as =>
    rw [List.head?_cons] at h
    cases h
    exact List.mem_cons_self _ _

theorem not_mem_of_contains_false {l : List Char} {x : Char}
    (h : l.contains x = false) : x ∉ l := by
  intro hm
  have ht : l.contains x = true := List.elem_eq_true_of_mem hm
  rw [h] at ht
  cases ht

theorem cleanSeg_no_slash {s : String} (h : cleanSeg s = true) :
    s.data.contains '/' = false := by
  unfold cleanSeg at h
  simp only [Bool.and_eq_true, Bool.not_eq_true'] at h
  exact h.2

theorem cleanSeg_head_ne_slash {s : String} (h : cleanSeg s = true) :
    ¬(s.data.head? = some '/') := fun hh =>
  not_mem_of_contains_false (cleanSeg_no_slash h) (head?_mem hh)

theorem pathSegsOfString_clean {s : String} (h : cleanSeg s = true) :
    pathSegsOfString s = [s] := by
  obtain ⟨hne, hdot, -⟩ := cleanSeg_facts h
  unfold pathSegsOfString
  rw [splitSlash_of_no_slash (not_mem_of_contains_false (cleanSeg_no_slash h))]
  have h1 : s.data.isEmpty = false := by
    cases hd : s.data with
    | nil => exact absurd (String.ext hd) hne
    | cons a as => rfl
  have h2 : (s.data == ['.']) = false := by
    by_cases hq : s.data = ['.']
    · exact absurd (String.ext hq) hdot
    · exact beq_eq_false_iff_ne.mpr hq
  simp [List.filter, h1, h2]

theorem pathJoin_clean_seg {s : String} (base : AbsPath) (h : cleanSeg s = true) :
    pathJoin base s = base ++ [s] := by
  unfold pathJoin
  rw [if_neg (cleanSeg_head_ne_slash h), pathSegsOfString_clean h]

theorem baseOk_insert {fs : FS} {chat_id : String} {q : AbsPath} {n : Node}
    (hb : baseOk fs chat_id) (h1 : q ≠ ["data"]) (h2 : q ≠ ["data", "sandboxes"])
    (h3 : q ≠ get_sandbox_path chat_id) : baseOk (fs.insert q n) chat_id :=
  ⟨by rw [lookup_insert_ne (Ne.symm h1)]; exact hb.1,
   by rw [lookup_insert_ne (Ne.symm h2)]; exact hb.2.1,
   by rw [lookup_insert_ne (Ne.symm h3)]; exact hb.2.2⟩

theorem createPaths_clean {fs : FS} {chat_id name : String} (hn : fs.Normal)
    (hc : cleanSeg chat_id = true) (hcn : cleanSeg name = true)
    (hb : baseOk fs chat_id) :
    createReadyFS fs chat_id = fs ∧
    createNewItem chat_id "/" name = get_sandbox_path chat_id ++ [name] ∧
    createResolved fs chat_id "/" name = get_sandbox_path chat_id ++ [name] := by
  have hready : createReadyFS fs chat_id = fs := mkdirP_noop hc hb
  have hnew : createNewItem chat_id "/" name = get_sandbox_path chat_id ++ [name] := by
    unfold createNewItem createTargetDir
    rw [(by decide : createSafePath "/" = "")]
    rw [if_neg (by decide)]
    exact pathJoin_clean_seg _ hcn
  refine ⟨hready, hnew, ?_⟩
  unfold createResolved resolveNoFollow
  rw [hready, hnew]
  simp [List.getLast?_concat, List.dropLast_concat, resolve_clean hn (cleanPath_root hc)]

theorem create_file_ok {fs : FS} {chat_id name : String} (hn : fs.Normal)
    (hc : cleanSeg chat_id = true) (hcn : cleanSeg name = true)
    (hb : baseOk fs chat_id)
    (habs : fs.lookup (get_sandbox_path chat_id ++ [name]) = none) :
    create_file_or_folder fs chat_id "/" (some name) (some "file") =
      (Except.ok { id := "/" ++ name, size := some 0, date := 0,
                   type := "file", lazy := false },
       fs.insert (get_sandbox_path chat_id ++ [name]) (Node.file 0 0)) := by
  obtain ⟨hne, -, -⟩ := cleanSeg_facts hcn
  obtain ⟨hready, hnew, hres⟩ := createPaths_clean hn hc hcn hb
  obtain ⟨m3, h3⟩ := isDirNode_elim hb.2.2
  have hrel : relIdOf (get_sandbox_path chat_id) (get_sandbox_path chat_id ++ [name]) =
      some ("/" ++ name) := by
    unfold relIdOf
    rw [if_pos (isPrefixOf_append_self _ _), List.drop_left]
    rfl
  unfold create_file_or_folder
  simp only [Option.getD_some]
  rw [if_neg hne, if_neg (by decide), hready, hres, habs]
  rw [if_neg (by simp), if_neg (by decide)]
  rw [List.dropLast_concat]
  simp only [h3, hnew, hrel]

theorem create_conflict {fs : FS} {chat_id name ty : String} (hn : fs.Normal)
    (hc : cleanSeg chat_id = true) (hcn : cleanSeg name = true)
    (hb : baseOk fs chat_id) (hty : ty = "file" ∨ ty = "folder")
    (hex : (fs.lookup (get_sandbox_path chat_id ++ [name])).isSome = true) :
    create_file_or_folder fs chat_id "/" (some name) (some ty) =
      (Except.error ApiErr.conflict, fs) := by
  obtain ⟨hne, -, -⟩ := cleanSeg_facts hcn
  obtain ⟨hready, -, hres⟩ := createPaths_clean hn hc hcn hb
  unfold create_file_or_folder
  simp only [Option.getD_some]
  rw [if_neg hne, if_neg (by rcases hty with h | h <;> simp [h]), hready, hres]
  rw [if_pos hex]

/-! ## Claim C5 -/

/-- C5: on any normal state with the sandbox chain materialized,
creating a file `name` that is absent succeeds with an Entry of
`size = 0`, and creating it again answers Conflict (first conjunct);
and creating a file or a folder whose target already exists answers
Conflict with the state unchanged (second conjunct). -/
theorem c5_create_twice_conflict :
    (∀ (fs : FS) (chat_id name : String),
      fs.Normal → cleanSeg chat_id = true → cleanSeg name = true →
      baseOk fs chat_id →
      fs.lookup (get_sandbox_path chat_id ++ [name]) = none →
      (create_file_or_folder fs chat_id "/" (some name) (some "file")).1 =
        Except.ok { id := "/" ++ name, size := some 0, date := 0,
                    type := "file", lazy := false } ∧
      (create_file_or_folder
          (create_file_or_folder fs chat_id "/" (some name) (some "file")).2
          chat_id "/" (some name) (some "file")).1 = Except.error ApiErr.conflict) ∧
    (∀ (fs : FS) (chat_id name ty : String),
      fs.Normal → cleanSeg chat_id = true → cleanSeg name = true →
      baseOk fs chat_id → (ty = "file" ∨ ty = "folder") →
      (fs.lookup (get_sandbox_path chat_id ++ [name])).isSome = true →
      create_file_or_folder fs chat_id "/" (some name) (some ty) =
        (Except.error ApiErr.conflict, fs)) := by
  constructor
  · intro fs chat_id name hn hc hcn hb habs
    have hfirst := create_file_ok hn hc hcn hb habs
    have hclean : cleanPath (get_sandbox_path chat_id ++ [name]) = true := by
      rw [cleanPath_append, cleanPath_root hc]
      simp [cleanPath, hcn]
    have hn2 : (fs.insert (get_sandbox_path chat_id ++ [name]) (Node.file 0 0)).Normal :=
      Normal_insert hn hclean rfl habs
    have hb2 : baseOk (fs.insert (get_sandbox_path chat_id ++ [name]) (Node.file 0 0))
        chat_id :=
      baseOk_insert hb (by simp [get_sandbox_path, SANDBOX_BASE_PATH])
        (by simp [get_sandbox_path, SANDBOX_BASE_PATH]) (by simp)
    have hex2 : ((fs.insert (get_sandbox_path chat_id ++ [name])
        (Node.file 0 0)).lookup (get_sandbox_path chat_id ++ [name])).isSome = true := by
      rw [lookup_insert_self habs]
      rfl
    have hsecond := create_conflict hn2 hc hcn hb2 (Or.inl rfl) hex2
    exact ⟨by rw [hfirst], by simp only [hfirst, hsecond]⟩
  · intro fs chat_id name ty hn hc hcn hb hty hex
    exact create_conflict hn hc hcn hb hty hex

/-- Witness for C5: file `x` created twice in the `chatA` sandbox, and
folder creation over the existing `docs` entry of the `chatD` sandbox. -/
theorem c5_create_twice_conflict_witness :
    ((create_file_or_folder fsPlain "chatA" "/" (some "x") (some "file")).1 =
        Except.ok { id := "/x", size := some 0, date := 0, type := "file", lazy := false } ∧
      (create_file_or_folder
          (create_file_or_folder fsPlain "chatA" "/" (some "x") (some "file")).2
          "chatA" "/" (some "x") (some "file")).1 = Except.error ApiErr.conflict) ∧
    create_file_or_folder fsDocs "chatD" "/" (some "docs") (some "folder") =
      (Except.error ApiErr.conflict, fsDocs) :=
  ⟨c5_create_twice_conflict.1 fsPlain "chatA" "x" (by decide) (by decide) (by decide)
     (by decide) (by decide),
   c5_create_twice_conflict.2 fsDocs "chatD" "docs" "folder" (by decide) (by decide)
     (by decide) (by decide) (Or.inr rfl) (by decide)⟩

/-! ## Claim C10 -/

/-- C10: a delete whose raw path sanitizes to the empty string (such
as `"/"`, `".."` or `""`) targets the sandbox root itself: on a normal
state whose root directory exists, the root passes the existence and
confinement checks, the whole tree rooted there is removed
(`shutil.rmtree`), and the call returns success. -/
theorem c10_delete_root_removes_tree :
    ∀ (fs : FS) (chat_id raw : String) (m : Nat),
      fs.Normal → cleanSeg chat_id = true →
      sanitize_path raw = "" →
      fs.lookup (get_sandbox_path chat_id) = some (Node.dir m) →
      delete_sandbox_file fs chat_id raw =
        (Except.ok (), fs.removeTree (get_sandbox_path chat_id)) ∧
      ∀ e ∈ (delete_sandbox_file fs chat_id raw).2.entries,
        (get_sandbox_path chat_id).isPrefixOf e.1 = false := by
  intro fs chat_id raw m hn hc hs hroot
  have hcr : cleanPath (get_sandbox_path chat_id) = true := cleanPath_root hc
  have htar : opTarget chat_id raw = get_sandbox_path chat_id := by
    unfold opTarget
    rw [hs]
    exact pathJoin_empty _
  have hex : fs.pexists (opTarget chat_id raw) = true := by
    rw [htar]
    unfold FS.pexists
    rw [statNode_clean hn hcr, hroot]
    rfl
  have hconf : confined fs (get_sandbox_path chat_id) (opTarget chat_id raw) = true := by
    rw [htar]
    unfold confined
    rw [resolve_clean hn hcr]
    rw [isPrefixOf_true_iff]
    exact ⟨[], by simp⟩
  have hnotfile : fs.isFile (opTarget chat_id raw) = false := by
    rw [htar]
    unfold FS.isFile
    rw [statNode_clean hn hcr, hroot]
  have hres : resolve fs (opTarget chat_id raw) = get_sandbox_path chat_id := by
    rw [htar]
    exact resolve_clean hn hcr
  have hdel : delete_sandbox_file fs chat_id raw =
      (Except.ok (), fs.removeTree (get_sandbox_path chat_id)) := by
    unfold delete_sandbox_file
    rw [hex, hconf, hnotfile, hres]
    simp
  refine ⟨hdel, ?_⟩
  intro e he
  rw [hdel] at he
  have he2 : e ∈ (fs.removeTree (get_sandbox_path chat_id)).entries := he
  unfold FS.removeTree at he2
  have := (List.mem_filter.mp he2).2
  simpa using this

/-- Witness for C10: deleting `"/"` on the populated `c9` sandbox
leaves exactly the two base directories. -/
theorem c10_delete_root_removes_tree_witness :
    delete_sandbox_file fsInfo "c9" "/" =
      (Except.ok (), fsInfo.removeTree (get_sandbox_path "c9")) ∧
    (delete_sandbox_file fsInfo "c9" "/").2 =
      FS.mk [(["data"], Node.dir 0), (["data", "sandboxes"], Node.dir 0)] :=
  ⟨(c10_delete_root_removes_tree fsInfo "c9" "/" 0 (by decide) (by decide)
      (by decide) (by decide)).1,
   by decide⟩

/-! ## Claim C9 -/

/-- `true` iff the node is a regular file. -/
def nodeIsFile : Node → Bool
  | Node.file _ _ => true
  | _ => false

/-- The stored size of a node (0 for non-files). -/
def nodeSizeOf : Node → Nat
  | Node.file sz _ => sz
  | _ => 0

/-- The spec's reading of `Info`: the sum of the sizes of all regular
files stored strictly below `root`, at any nesting depth. -/
def fileSizesUnder (fs : FS) (root : AbsPath) : Nat :=
  ((fs.entries.filter (fun e =>
      root.isPrefixOf e.1 && !(e.1 == root) && nodeIsFile e.2)).map
    (fun e => nodeSizeOf e.2)).sum

theorem isFile_entry {fs : FS} (hn : fs.Normal) {e : AbsPath × Node}
    (he : e ∈ fs.entries) : fs.isFile e.1 = nodeIsFile e.2 := by
  unfold FS.isFile
  rw [statNode_clean hn (hn.1 e he).1, lookup_of_mem hn he]
  cases h : e.2 <;> rfl

theorem statSize_entry {fs : FS} (hn : fs.Normal) {e : AbsPath × Node}
    (he : e ∈ fs.entries) : statSize fs e.1 = nodeSizeOf e.2 := by
  unfold statSize
  rw [statNode_clean hn (hn.1 e he).1, lookup_of_mem hn he]
  cases h : e.2 <;> rfl

theorem foldl_add_eq_sum (fs : FS) :
    ∀ (l : List AbsPath) (n : Nat),
      l.foldl (fun acc p => acc + statSize fs p) n = n + (l.map (statSize fs)).sum := by
  intro l
  induction l with
  | nil => intro n; simp
  | cons p l ih =>
    intro n
    rw [List.foldl_cons, ih, List.map_cons, List.sum_cons, Nat.add_assoc]

theorem used_eq_fileSizes_aux (fs : FS) (hn : fs.Normal) (root : AbsPath) :
    ∀ l : List (AbsPath × Node), (∀ e ∈ l, e ∈ fs.entries) →
      (((l.filterMap (fun e =>
          if root.isPrefixOf e.1 && !(e.1 == root) then some e.1 else none)).filter
        (fun p => fs.isFile p)).map (statSize fs)).sum =
      ((l.filter (fun e =>
          root.isPrefixOf e.1 && !(e.1 == root) && nodeIsFile e.2)).map
        (fun e => nodeSizeOf e.2)).sum := by
  intro l
  induction l with
  | nil => intro _; simp
  | cons e l ih =>
    intro hsub
    have he := hsub e (List.mem_cons_self _ _)
    have hrec := ih (fun x hx => hsub x (List.mem_cons_of_mem e hx))
    by_cases hcond : (root.isPrefixOf e.1 && !(e.1 == root)) = true
    · have hp : root <+: e.1 ∧ ¬(e.1 = root) := by simpa using hcond
      by_cases hf : nodeIsFile e.2 = true
      · have hff : fs.isFile e.1 = true := by rw [isFile_entry hn he, hf]
        simpa [List.filterMap_cons, List.filter_cons, hcond, hp.1, hp.2, hff, hf,
          statSize_entry hn he] using hrec
      · have hf' : nodeIsFile e.2 = false := by simpa using hf
        have hff : fs.isFile e.1 = false := by rw [isFile_entry hn he, hf']
        simpa [List.filterMap_cons, List.filter_cons, hcond, hp.1, hp.2, hff, hf']
          using hrec
    · have hcond' : (root.isPrefixOf e.1 && !(e.1 == root)) = false := by
        simpa using hcond
      have hnp : ¬(root <+: e.1 ∧ ¬(e.1 = root)) := by simpa using hcond
      simpa [List.filterMap_cons, List.filter_cons, hcond', hnp] using hrec

/-- C9: `Info` always reports the fixed 100,000,000-byte ceiling; on a
missing sandbox root it reports zero usage rather than an error; and
on an existing root of a normal state its used figure equals the sum
of the sizes of all regular files in the entire subtree, independent
of nesting depth (the witness instantiates files of 10 and 20 bytes in
two subfolders, yielding 30). -/
theorem c9_info_used_and_total (fs : FS) (chat_id : String)
    (hn : fs.Normal) (hc : cleanSeg chat_id = true) :
    (get_sandbox_info fs chat_id).2 = 100000000 ∧
    (fs.pexists (get_sandbox_path chat_id) = false →
      (get_sandbox_info fs chat_id).1 = 0) ∧
    (fs.pexists (get_sandbox_path chat_id) = true →
      (get_sandbox_info fs chat_id).1 =
        fileSizesUnder fs (get_sandbox_path chat_id)) := by
  refine ⟨?_, ?_, ?_⟩
  · unfold get_sandbox_info
    split <;> rfl
  · intro h
    unfold get_sandbox_info
    rw [h]
    rfl
  · intro h
    unfold get_sandbox_info
    rw [h]
    have hred : (!true) = false := rfl
    rw [hred, if_neg (by simp)]
    show ((subtreePaths fs (resolve fs (get_sandbox_path chat_id))).filter
        (fun p => fs.isFile p)).foldl (fun acc p => acc + statSize fs p) 0 = _
    rw [resolve_clean hn (cleanPath_root hc), foldl_add_eq_sum, Nat.zero_add]
    unfold subtreePaths fileSizesUnder
    exact used_eq_fileSizes_aux fs hn (get_sandbox_path chat_id) fs.entries
      (fun e he => he)

/-- Witness for C9: files of sizes 10 and 20 in two subfolders of the
`c9` sandbox yield `(30, 100000000)`. -/
theorem c9_info_used_and_total_witness :
    (get_sandbox_info fsInfo "c9").1 = fileSizesUnder fsInfo (get_sandbox_path "c9") ∧
    get_sandbox_info fsInfo "c9" = (30, 100000000) :=
  ⟨(c9_info_used_and_total fsInfo "c9" (by decide) (by decide)).2.2 (by decide),
   by decide⟩

/-! ## Entry locations (claim C6) -/

end SandboxRouter
